import Mathlib

/-!
Verification of the Inquiry Cup script validator, clock and match engine.

The definitions below are a shallow embedding of the TypeScript sources:
  - `src/engine/clock.ts`     : clock period derivation
  - `src/engine/validator.ts` : script validation
  - `src/engine/engine.ts`    : match state engine
  - `src/types/match.ts`, `src/types/events.ts`, `src/types/state.ts`
                              : zod schema and state shapes

Modelling conventions:
  - JavaScript numbers in scripts (minutes, coordinates, season) are
    modelled as `Int`; none of the properties studied here depend on
    fractional values.  Scores are `Nat` (they start at 0 and are only
    incremented).
  - Optional fields become `Option`; JavaScript string truthiness
    (`undefined` and `""` are falsy) is the `truthy` predicate below.
  - The engine's `Map<string, PlayerState>` becomes an association list
    with JavaScript `Map` semantics: `mapSet` replaces the value at an
    existing key, `mapModify` mutates the entry that `get` would return
    (the first entry with the key), `mapGet` returns the first match.
  - Template literals are built with `++`; the decimal rendering of a
    `Nat` is `natStr`, of an `Int` is `intStr`.
-/

namespace Cup

/-! ### Clock (src/engine/clock.ts) -/

/-- Embeds `MatchPeriod` from src/types/state.ts. -/
inductive MatchPeriod where
  | pre
  | first_half
  | halftime
  | second_half
  | fulltime
deriving DecidableEq, Repr

/-- Embeds `ClockState` from src/types/state.ts. -/
structure ClockState where
  minute : Int
  added : Int
  period : MatchPeriod
deriving DecidableEq, Repr

/-- Embeds `derivePeriod` from clock.ts. -/
def derivePeriod (minute : Int) (currentPeriod : MatchPeriod) : MatchPeriod :=
  if currentPeriod = MatchPeriod.pre ∧ minute = 0 then MatchPeriod.first_half
  else if currentPeriod = MatchPeriod.halftime then MatchPeriod.second_half
  else if minute ≤ 45 then MatchPeriod.first_half
  else MatchPeriod.second_half

/-- Embeds `advanceClock` from clock.ts; `added.getD 0` models `added ?? 0`. -/
def advanceClock (current : ClockState) (minute : Int) (added : Option Int) : ClockState :=
  { minute := minute
    added := added.getD 0
    period := derivePeriod minute current.period }

/-- Embeds `initialClock` from clock.ts. -/
def initialClock : ClockState :=
  { minute := 0, added := 0, period := MatchPeriod.pre }

/-! ### Decimal rendering of numbers (JS template literals) -/

/-- The character for the decimal digit `d` (`d < 10`). -/
def digitChar (d : Nat) : Char :=
  Char.ofNat (48 + d)

/-- Fuelled digit accumulator; `fuel > n` always suffices. -/
def natStrCore : Nat → Nat → List Char → List Char
  | 0, _, acc => acc
  | fuel + 1, n, acc =>
    if n < 10 then digitChar n :: acc
    else natStrCore fuel (n / 10) (digitChar (n % 10) :: acc)

/-- The character list of the decimal rendering of `n`. -/
def natRep (n : Nat) : List Char :=
  natStrCore (n + 1) n []

/-- Decimal rendering of a `Nat`, as produced by a JS template literal. -/
def natStr (n : Nat) : String :=
  String.mk (natRep n)

/-- Decimal rendering of an `Int`. -/
def intStr (n : Int) : String :=
  if n < 0 then "-" ++ natStr n.natAbs else natStr n.natAbs

/-- Decode a digit list back to the number it renders. -/
def charsVal (l : List Char) : Nat :=
  l.foldl (fun a c => 10 * a + (c.toNat - 48)) 0

/-- Does `s` start with `p`?  (`String.startsWith`, at the level of the
character data.) -/
def strStartsWith (s p : String) : Bool :=
  p.data.isPrefixOf s.data

/-! ### Raw documents (the untyped input shape, src/types) -/

/-- A pitch position (`PitchPosition` in src/types/events.ts). -/
structure Pos where
  x : Int
  y : Int
deriving DecidableEq, Repr

/-- A participant entry as it appears in a raw document. -/
structure RawPlayer where
  name : String
  role : String
  voice : String
deriving DecidableEq, Repr

/-- A team entry as it appears in a raw document. -/
structure RawTeam where
  code : String
  name : String
  tender : RawPlayer
  field : List RawPlayer
deriving DecidableEq, Repr

/-- An official entry (referee / pbp / color commentator). -/
structure RawOfficial where
  name : String
  voice : String
deriving DecidableEq, Repr

/-- The officials triple. -/
structure RawOfficials where
  referee : RawOfficial
  pbp : RawOfficial
  color : RawOfficial
deriving DecidableEq, Repr

/-- Match metadata (`MatchMetaSchema` shape). -/
structure RawMeta where
  id : String
  season : Int
  title : String
  home : RawTeam
  away : RawTeam
  officials : RawOfficials
deriving DecidableEq, Repr

/-- One event of a raw document (`MatchEventSchema` shape: one flat
structure with many optional fields).  The source fields `from` and `to`
are Lean keywords and are embedded as `from'` and `to'`. -/
structure RawEvent where
  minute : Int := 0
  added : Option Int := none
  type : String
  actor : Option String := none
  text : Option String := none
  tone : Option String := none
  pause_ms : Option Int := none
  from' : Option String := none
  to' : Option String := none
  position : Option Pos := none
  card : Option String := none
  reason : Option String := none
  direction : Option String := none
deriving DecidableEq, Repr

/-- A raw match script document.  The source field `match` is a Lean
keyword and is embedded as `match'`. -/
structure RawScript where
  match' : RawMeta
  events : List RawEvent
deriving DecidableEq, Repr

/-- An arbitrary input value handed to the validator: either a document
of the right object shape, or anything else (non-object, missing keys,
wrong primitive types), which zod rejects with a schema issue. -/
inductive Raw where
  | malformed (received : String)
  | doc (s : RawScript)
deriving DecidableEq, Repr

/-- JavaScript string truthiness for optional fields: `undefined` and
`""` are falsy, every other string is truthy. -/
def truthy : Option String → Bool
  | none => false
  | some s => !(s == "")

/-! ### Schema validation (zod schemas in src/types/match.ts, events.ts)

`schemaIssues` models which documents `MatchScriptSchema.safeParse`
accepts and, on failure, the issue list (each item already rendered as
`path: message` the way validator.ts joins them).  The exact wording of
zod's built-in messages is abbreviated; no claim depends on it. -/

/-- The position roles accepted by `PositionRole`. -/
def positionRoles : List String :=
  ["tender", "defender", "midfielder", "forward"]

/-- The event kinds accepted by `EventType`. -/
def eventTypes : List String :=
  ["whistle", "dead_ball", "speak", "announce", "comment", "pass",
   "intercept", "hold", "move", "exit", "card", "penalty", "goal",
   "pause", "halftime", "fulltime"]

/-- Does a string match the `/^S\d+M\d+$/` pattern of `MatchMetaSchema.id`? -/
def isIdFormat (s : String) : Bool :=
  match s.data with
  | 'S' :: rest =>
    let p1 := rest.span (fun c => c.isDigit)
    match p1.1, p1.2 with
    | [], _ => false
    | _ :: _, 'M' :: rest2 =>
      let p2 := rest2.span (fun c => c.isDigit)
      !p2.1.isEmpty && p2.2.isEmpty
    | _ :: _, _ => false
  | _ => false

/-- Schema issues of one player entry. -/
def schemaPlayerIssues (path : String) (p : RawPlayer) : List String :=
  if positionRoles.contains p.role then []
  else [path ++ ".role: Invalid enum value"]

/-- Schema issues of a list of field players, with element paths. -/
def schemaFieldIssues (path : String) : Nat → List RawPlayer → List String
  | _, [] => []
  | i, p :: rest =>
    schemaPlayerIssues (path ++ "." ++ natStr i) p
      ++ schemaFieldIssues path (i + 1) rest

/-- Schema issues of one team entry (`TeamSchema`): note that the zod
schema itself constrains `field` to exactly 4 entries
(`z.array(PlayerSchema).length(4)`). -/
def schemaTeamIssues (path : String) (t : RawTeam) : List String :=
  (if t.code.length = 3 then []
   else [path ++ ".code: String must contain exactly 3 character(s)"])
    ++ schemaPlayerIssues (path ++ ".tender") t.tender
    ++ (if t.field.length = 4 then []
        else [path ++ ".field: Array must contain exactly 4 element(s)"])
    ++ schemaFieldIssues (path ++ ".field") 0 t.field

/-- Schema issues of the match metadata (`MatchMetaSchema`). -/
def schemaMetaIssues (m : RawMeta) : List String :=
  (if isIdFormat m.id then [] else ["match.id: Format: S1M001"])
    ++ (if 0 < m.season then []
        else ["match.season: Number must be greater than 0"])
    ++ schemaTeamIssues "match.home" m.home
    ++ schemaTeamIssues "match.away" m.away

/-- Schema issues of one event (`MatchEventSchema`). -/
def schemaEventIssues (i : Nat) (e : RawEvent) : List String :=
  let path := "events." ++ natStr i
  (if e.minute < 0
   then [path ++ ".minute: Number must be greater than or equal to 0"] else [])
    ++ (if 90 < e.minute
        then [path ++ ".minute: Number must be less than or equal to 90"] else [])
    ++ (match e.added with
        | some a =>
          if a < 0
          then [path ++ ".added: Number must be greater than or equal to 0"] else []
        | none => [])
    ++ (if eventTypes.contains e.type then []
        else [path ++ ".type: Invalid enum value"])
    ++ (match e.position with
        | some p =>
          (if p.x < -50 ∨ 50 < p.x then [path ++ ".position.x: Out of range"] else [])
            ++ (if p.y < -35 ∨ 35 < p.y then [path ++ ".position.y: Out of range"] else [])
        | none => [])
    ++ (match e.card with
        | some c =>
          if c = "yellow" ∨ c = "red" then []
          else [path ++ ".card: Invalid enum value"]
        | none => [])

/-- Schema issues of the event list, with running index. -/
def schemaEventsIssues : Nat → List RawEvent → List String
  | _, [] => []
  | i, e :: rest => schemaEventIssues i e ++ schemaEventsIssues (i + 1) rest

/-- All schema issues of a raw document (`MatchScriptSchema.safeParse`
fails exactly when this list is non-empty). -/
def schemaIssues (s : RawScript) : List String :=
  schemaMetaIssues s.match' ++ schemaEventsIssues 0 s.events

/-- ASCII upper-casing of one character (the behaviour of JavaScript
`toUpperCase` on the ASCII team codes). -/
def upChar (c : Char) : Char :=
  if 97 ≤ c.toNat ∧ c.toNat ≤ 122 then Char.ofNat (c.toNat - 32) else c

/-- ASCII upper-casing of a string. -/
def strToUpper (s : String) : String :=
  String.mk (s.data.map upChar)

/-- The normalization performed by parsing: team codes are upper-cased
(`z.string().length(3).toUpperCase()`). -/
def normalizeScript (s : RawScript) : RawScript :=
  { s with
    match' :=
      { s.match' with
        home := { s.match'.home with code := strToUpper s.match'.home.code }
        away := { s.match'.away with code := strToUpper s.match'.away.code } } }

/-! ### Validator (src/engine/validator.ts) -/

/-- Embeds `ValidationResult` from validator.ts. -/
structure ValidationResult where
  valid : Bool
  errors : List String
  warnings : List String
deriving DecidableEq, Repr

/-- The ordered roster name/context pairs collected by the `addName`
calls in validator.ts (home tender, home field, away tender, away field,
referee, pbp, color). -/
def rosterNames (m : RawMeta) : List (String × String) :=
  (m.home.tender.name, m.home.code ++ " tender")
    :: (m.home.field.map (fun p => (p.name, m.home.code ++ " field"))
    ++ ((m.away.tender.name, m.away.code ++ " tender")
    :: (m.away.field.map (fun p => (p.name, m.away.code ++ " field"))
    ++ [(m.officials.referee.name, "referee"),
        (m.officials.pbp.name, "pbp"),
        (m.officials.color.name, "color")])))

/-- The identity-uniqueness fold of validator.ts: `seen` is the
`allNames` set built so far; a name already seen produces one
`[identity]` error, and every name is added to the set. -/
def dupErrors : List (String × String) → List String → List String
  | [], _ => []
  | nc :: rest, seen =>
    (if seen.contains nc.1 then
      ["[identity] Duplicate name \x22" ++ nc.1 ++ "\x22 in " ++ nc.2]
     else [])
      ++ dupErrors rest (nc.1 :: seen)

/-- The formation check of validator.ts (each team must have exactly 4
field players). -/
def formationErrors (m : RawMeta) : List String :=
  (if m.home.field.length ≠ 4 then
    ["[formation] " ++ m.home.code ++ " has " ++ natStr m.home.field.length
      ++ " field players, expected 4"]
   else [])
    ++ (if m.away.field.length ≠ 4 then
         ["[formation] " ++ m.away.code ++ " has " ++ natStr m.away.field.length
           ++ " field players, expected 4"]
        else [])

/-- Embeds `knownNames` of validator.ts: all roster names plus the three fixed
role aliases. -/
def knownNames (m : RawMeta) : List String :=
  (rosterNames m).map Prod.fst ++ ["referee", "pbp", "color"]

/-- The common prefix of per-event validator messages. -/
def evPre (i : Nat) : String :=
  "[events] Event " ++ natStr i

/-- The unknown-actor message of the per-event loop. -/
def unknownActorMsg (i : Nat) (a : String) : String :=
  evPre i ++ (": unknown actor \x22" ++ a ++ "\x22")

/-- The unknown-`from` message of the per-event loop. -/
def unknownFromMsg (i : Nat) (a : String) : String :=
  evPre i ++ (": unknown \x27from\x27 \x22" ++ a ++ "\x22")

/-- The unknown-`to` message of the per-event loop. -/
def unknownToMsg (i : Nat) (a : String) : String :=
  evPre i ++ (": unknown \x27to\x27 \x22" ++ a ++ "\x22")

/-- The speak-without-text message. -/
def speakNoTextMsg (i : Nat) : String :=
  evPre i ++ ": speak event has no text"

/-- The announce-without-text message. -/
def announceNoTextMsg (i : Nat) : String :=
  evPre i ++ ": announce event has no text"

/-- The pass-missing-`from` message. -/
def passFromMsg (i : Nat) : String :=
  evPre i ++ ": pass missing \x27from\x27"

/-- The pass-missing-`to` message. -/
def passToMsg (i : Nat) : String :=
  evPre i ++ ": pass missing \x27to\x27"

/-- The error messages produced for one event by the per-event loop of
validator.ts, in push order: unknown actor / from / to references, then
kind-specific required-field checks. -/
def eventErrors (known : List String) (i : Nat) (ev : RawEvent) : List String :=
  (if truthy ev.actor ∧ ¬ known.contains (ev.actor.getD "") then
    [unknownActorMsg i (ev.actor.getD "")]
   else [])
    ++ (if truthy ev.from' ∧ ¬ known.contains (ev.from'.getD "") then
         [unknownFromMsg i (ev.from'.getD "")]
        else [])
    ++ (if truthy ev.to' ∧ ¬ known.contains (ev.to'.getD "") then
         [unknownToMsg i (ev.to'.getD "")]
        else [])
    ++ (if ev.type = "speak" ∧ ¬ truthy ev.text then
         [speakNoTextMsg i]
        else [])
    ++ (if ev.type = "announce" ∧ ¬ truthy ev.text then
         [announceNoTextMsg i]
        else [])
    ++ (if ev.type = "pass" ∧ ¬ truthy ev.from' then
         [passFromMsg i]
        else [])
    ++ (if ev.type = "pass" ∧ ¬ truthy ev.to' then
         [passToMsg i]
        else [])

/-- The event-error loop of validator.ts (`for i in 0..events.length`). -/
def allEventErrors (known : List String) : Nat → List RawEvent → List String
  | _, [] => []
  | i, e :: rest => eventErrors known i e ++ allEventErrors known (i + 1) rest

/-- The minute-monotonicity warnings of validator.ts: event `i` (from 1)
is compared with event `i-1`. -/
def monoWarnings : Nat → List RawEvent → List String
  | i, e1 :: e2 :: rest =>
    (if e2.minute < e1.minute then
      ["[sequence] Event " ++ natStr i ++ ": minute " ++ intStr e2.minute
        ++ " < previous " ++ intStr e1.minute]
     else [])
      ++ monoWarnings (i + 1) (e2 :: rest)
  | _, _ => []

/-- The bookending warnings of validator.ts: opening whistle and closing
fulltime. -/
def bookendWarnings (events : List RawEvent) : List String :=
  (match events.head? with
   | some e =>
     if e.type ≠ "whistle" then ["[sequence] Match does not begin with a whistle"]
     else []
   | none => [])
    ++ (match events.getLast? with
        | some e =>
          if e.type ≠ "fulltime" then ["[sequence] Match does not end with fulltime"]
          else []
        | none => [])

/-- Embeds `validateScript` from validator.ts.  Schema failure short-circuits
with one `[schema]` error per issue; otherwise the semantic checks run
on the parsed (normalized) document and are collected exhaustively. -/
def validateScript : Raw → ValidationResult
  | Raw.malformed received =>
    { valid := false
      errors := ["[schema] : Expected object, received " ++ received]
      warnings := [] }
  | Raw.doc s0 =>
    if schemaIssues s0 = [] then
      let s := normalizeScript s0
      let errors :=
        dupErrors (rosterNames s.match') []
          ++ formationErrors s.match'
          ++ (if s.events.isEmpty then ["[events] Match has no events"] else [])
          ++ allEventErrors (knownNames s.match') 0 s.events
      { valid := errors.isEmpty
        errors := errors
        warnings := monoWarnings 1 s.events ++ bookendWarnings s.events }
    else
      { valid := false
        errors := (schemaIssues s0).map (fun m => "[schema] " ++ m)
        warnings := [] }

/-! ### Engine state (src/types/state.ts) -/

/-- A team side. -/
inductive Side where
  | home
  | away
deriving DecidableEq, Repr

/-- Embeds `PlayerState` from src/types/state.ts. -/
structure PlayerState where
  player : RawPlayer
  team : Side
  position : Pos
  hasBall : Bool
  onPitch : Bool
  cards : List String
deriving DecidableEq, Repr

/-- Embeds `BallState` from src/types/state.ts. -/
structure BallState where
  holder : Option String
  position : Pos
  dead : Bool
deriving DecidableEq, Repr

/-- Embeds `Score` from src/types/state.ts. -/
structure Score where
  home : Nat
  away : Nat
deriving DecidableEq, Repr

/-- Embeds `MatchState` from src/types/state.ts; the `Map<string, PlayerState>`
is an association list with JavaScript `Map` semantics. -/
structure MatchState where
  meta : RawMeta
  clock : ClockState
  score : Score
  ball : BallState
  players : List (String × PlayerState)
  eventIndex : Nat
  totalEvents : Nat
deriving DecidableEq, Repr

/-- Embeds `Map.get`: the value at the first (only) entry with the key. -/
def mapGet : List (String × PlayerState) → String → Option PlayerState
  | [], _ => none
  | e :: rest, k => if e.1 = k then some e.2 else mapGet rest k

/-- Embeds `Map.set`: replace the value at an existing key, else append. -/
def mapSet : List (String × PlayerState) → String → PlayerState → List (String × PlayerState)
  | [], k, v => [(k, v)]
  | e :: rest, k, v => if e.1 = k then (k, v) :: rest else e :: mapSet rest k v

/-- Mutating the object returned by `Map.get` (the entry `get` finds). -/
def mapModify : List (String × PlayerState) → String → (PlayerState → PlayerState) → List (String × PlayerState)
  | [], _, _ => []
  | e :: rest, k, f => if e.1 = k then (e.1, f e.2) :: rest else e :: mapModify rest k f

/-- The default formation coordinates of `defaultPositions` in
src/types/state.ts (home plays the negative x half, away the mirror). -/
structure Formation where
  tender : Pos
  defender : Pos
  midfielder_left : Pos
  midfielder_right : Pos
  forward : Pos
deriving DecidableEq, Repr

/-- Embeds `defaultPositions` from src/types/state.ts. -/
def defaultPositions (team : Side) : Formation :=
  let sign : Int := if team = Side.home then -1 else 1
  { tender := { x := sign * 46, y := 0 }
    defender := { x := sign * 30, y := 0 }
    midfielder_left := { x := sign * 15, y := -12 }
    midfielder_right := { x := sign * 15, y := 12 }
    forward := { x := sign * 5, y := 0 } }

/-! ### Engine (src/engine/engine.ts) -/

/-- Insert the field players of one team, pairing them positionally with
the side's four field coordinates.  The source indexes
`fieldPositions[i]` inside `forEach`; on schema-validated scripts the
list has exactly 4 entries, which `zip` reproduces. -/
def placeField (side : Side) (positions : List Pos) (fieldPlayers : List RawPlayer)
    (m : List (String × PlayerState)) : List (String × PlayerState) :=
  (fieldPlayers.zip positions).foldl
    (fun acc pp =>
      mapSet acc pp.1.name
        { player := pp.1, team := side, position := pp.2
          hasBall := false, onPitch := true, cards := [] })
    m

/-- Embeds `initializeState` from engine.ts (named `initState` here): one
runtime record per participant, ball dead at center, score 0-0, clock
pre-match, cursor at 0. -/
def initState (script : RawScript) : MatchState :=
  let m := script.match'
  let homePos := defaultPositions Side.home
  let awayPos := defaultPositions Side.away
  let players0 :=
    mapSet [] m.home.tender.name
      { player := m.home.tender, team := Side.home, position := homePos.tender
        hasBall := false, onPitch := true, cards := [] }
  let players1 :=
    placeField Side.home
      [homePos.defender, homePos.midfielder_left, homePos.midfielder_right, homePos.forward]
      m.home.field players0
  let players2 :=
    mapSet players1 m.away.tender.name
      { player := m.away.tender, team := Side.away, position := awayPos.tender
        hasBall := false, onPitch := true, cards := [] }
  let players3 :=
    placeField Side.away
      [awayPos.defender, awayPos.midfielder_left, awayPos.midfielder_right, awayPos.forward]
      m.away.field players2
  { meta := m
    clock := initialClock
    score := { home := 0, away := 0 }
    ball := { holder := none, position := { x := 0, y := 0 }, dead := true }
    players := players3
    eventIndex := 0
    totalEvents := script.events.length }

/-- The first phase of `giveBall`: remove the ball from the current
holder, when there is one (`if (this.state.ball.holder)`). -/
def clearHolderFlag (s : MatchState) : MatchState :=
  if truthy s.ball.holder then
    { s with
      players := mapModify s.players (s.ball.holder.getD "")
        (fun p => { p with hasBall := false }) }
  else s

/-- Embeds `giveBall` from engine.ts: clear the current holder's flag, then if
the named player exists, set their flag, move the ball to them and make
it live. -/
def giveBall (s : MatchState) (playerName : String) : MatchState :=
  match mapGet (clearHolderFlag s).players playerName with
  | some ps =>
    { clearHolderFlag s with
      players := mapModify (clearHolderFlag s).players playerName
        (fun p => { p with hasBall := true })
      ball := { holder := some playerName, position := ps.position, dead := false } }
  | none => clearHolderFlag s

/-- Embeds `applyEvent` from engine.ts: the per-kind state transition. -/
def applyEvent (s : MatchState) (event : RawEvent) : MatchState :=
  if event.type = "whistle" then
    let s1 :=
      if event.reason = some "kickoff" then
        giveBall { s with ball := { s.ball with dead := false } } s.meta.home.tender.name
      else if event.reason = some "halftime" ∨ event.reason = some "fulltime" then
        { s with ball := { holder := none, position := { x := 0, y := 0 }, dead := true } }
      else if event.reason = some "stoppage" then
        { s with ball := { s.ball with dead := true } }
      else if event.reason = some "restart" then
        { s with ball := { s.ball with dead := false } }
      else s
    let s2 :=
      if event.reason = some "halftime" then
        { s1 with clock := { s1.clock with period := MatchPeriod.halftime } }
      else s1
    if event.reason = some "fulltime" then
      { s2 with clock := { s2.clock with period := MatchPeriod.fulltime } }
    else s2
  else if event.type = "halftime" then
    { s with
      clock := { s.clock with period := MatchPeriod.halftime }
      ball := { holder := none, position := { x := 0, y := 0 }, dead := true } }
  else if event.type = "fulltime" then
    { s with
      clock := { s.clock with period := MatchPeriod.fulltime }
      ball := { s.ball with dead := true, holder := none } }
  else if event.type = "pass" then
    if truthy event.to' then giveBall s (event.to'.getD "") else s
  else if event.type = "intercept" then
    if truthy event.actor then giveBall s (event.actor.getD "") else s
  else if event.type = "hold" then
    if truthy event.actor then giveBall s (event.actor.getD "") else s
  else if event.type = "move" then
    if truthy event.actor ∧ event.position.isSome then
      match mapGet s.players (event.actor.getD "") with
      | some _ =>
        { s with
          players := mapModify s.players (event.actor.getD "")
            (fun p => { p with position := event.position.getD { x := 0, y := 0 } }) }
      | none => s
    else s
  else if event.type = "exit" then
    if truthy event.actor then
      match mapGet s.players (event.actor.getD "") with
      | some ps =>
        if ps.hasBall then
          { s with
            players := mapModify s.players (event.actor.getD "")
              (fun p => { p with onPitch := false, hasBall := false })
            ball := { s.ball with dead := true, holder := none } }
        else
          { s with
            players := mapModify s.players (event.actor.getD "")
              (fun p => { p with onPitch := false }) }
      | none => s
    else s
  else if event.type = "card" then
    if truthy event.actor ∧ truthy event.card then
      match mapGet s.players (event.actor.getD "") with
      | some _ =>
        { s with
          players := mapModify s.players (event.actor.getD "")
            (fun p => { p with cards := p.cards ++ [event.card.getD ""] }) }
      | none => s
    else s
  else if event.type = "goal" then
    if truthy event.actor then
      let s1 :=
        match mapGet s.players (event.actor.getD "") with
        | some ps =>
          if ps.team = Side.home then
            { s with score := { s.score with home := s.score.home + 1 } }
          else
            { s with score := { s.score with away := s.score.away + 1 } }
        | none => s
      { s1 with ball := { holder := none, position := { x := 0, y := 0 }, dead := true } }
    else s
  else if event.type = "dead_ball" then
    { s with ball := { holder := none, position := { x := 0, y := 0 }, dead := true } }
  else
    s

/-- One iteration of the replay loop in `run()`: set the cursor, advance
the clock from the event's minute/added fields, then apply the event.
(Dispatcher notification and pacing do not touch the state.) -/
def stepEvent (s : MatchState) (p : Nat × RawEvent) : MatchState :=
  applyEvent
    { s with
      eventIndex := p.1
      clock := advanceClock s.clock p.2.minute p.2.added }
    p.2

/-- Index the events the way the replay loop does. -/
def indexEvents : Nat → List RawEvent → List (Nat × RawEvent)
  | _, [] => []
  | i, e :: rest => (i, e) :: indexEvents (i + 1) rest

/-- The state after replaying the whole script (`run()` without the
dispatcher I/O). -/
def replayScript (script : RawScript) : MatchState :=
  (indexEvents 0 script.events).foldl stepEvent (initState script)

/-! ### Concrete fixtures used by witnesses and counterexamples -/

/-- A participant with the given name and role. -/
def mkPlayer (n r : String) : RawPlayer :=
  { name := n, role := r, voice := "en-voice" }

/-- A well-formed home team. -/
def homeTeam : RawTeam :=
  { code := "AAA", name := "Alpha"
    tender := mkPlayer "HT" "tender"
    field := [mkPlayer "HD" "defender", mkPlayer "HL" "midfielder",
              mkPlayer "HR" "midfielder", mkPlayer "HF" "forward"] }

/-- A well-formed away team. -/
def awayTeam : RawTeam :=
  { code := "BBB", name := "Beta"
    tender := mkPlayer "AT" "tender"
    field := [mkPlayer "AD" "defender", mkPlayer "AL" "midfielder",
              mkPlayer "AR" "midfielder", mkPlayer "AF" "forward"] }

/-- Well-formed match metadata. -/
def sampleMeta : RawMeta :=
  { id := "S1M001", season := 1, title := "Test"
    home := homeTeam, away := awayTeam
    officials :=
      { referee := { name := "Ref", voice := "v" }
        pbp := { name := "Pbp", voice := "v" }
        color := { name := "Col", voice := "v" } } }

/-- A schema-valid script whose single event is a pass missing both
`from` and `to`. -/
def passScript : RawScript :=
  { match' := sampleMeta
    events := [{ minute := 0, type := "pass" }] }

/-- A document whose home team has only 3 field players (and is
otherwise well-formed). -/
def threeFieldScript : RawScript :=
  { match' :=
      { sampleMeta with
        home := { homeTeam with field := homeTeam.field.take 3 } }
    events := [{ minute := 0, type := "whistle", reason := some "kickoff" }] }

/-- A kickoff whistle event. -/
def kickoffEv : RawEvent :=
  { minute := 0, type := "whistle", reason := some "kickoff" }

/-- The sample state right after kickoff (home tender holds the ball). -/
def kickoffState : MatchState :=
  applyEvent (initState passScript) kickoffEv

/-- A state in which the recorded ball holder has no possession flag
(the holder/flag desynchronisation that `giveBall` can produce). -/
def desyncState : MatchState :=
  { meta := sampleMeta
    clock := initialClock
    score := { home := 0, away := 0 }
    ball := { holder := some "HT", position := { x := 0, y := 0 }, dead := false }
    players := [("HT",
      { player := mkPlayer "HT" "tender", team := Side.home
        position := { x := -46, y := 0 }, hasBall := false, onPitch := true, cards := [] })]
    eventIndex := 0
    totalEvents := 0 }

/-- A state reached by real replay in which a player keeps a stale
possession flag while the ball holder is cleared: kickoff, pass to the
away defender, then `dead_ball`. -/
def staleFlagState : MatchState :=
  applyEvent
    (applyEvent kickoffState { minute := 1, type := "pass", from' := some "HT", to' := some "AD" })
    { minute := 2, type := "dead_ball" }

/-- The replay script exhibiting the possession-exclusivity violation:
kickoff, `dead_ball`, then a pass. -/
def staleFlagScript : RawScript :=
  { match' := sampleMeta
    events := [kickoffEv,
               { minute := 1, type := "dead_ball" },
               { minute := 2, type := "pass", from' := some "HT", to' := some "AD" }] }

/-! ### Properties of the decimal rendering -/

theorem natStrCore_append (fuel : Nat) : ∀ (n : Nat) (acc : List Char), n < fuel →
    natStrCore fuel n acc = natStrCore fuel n [] ++ acc := by
  induction fuel with
  | zero => intro n acc h; omega
  | succ f ih =>
    intro n acc h
    by_cases h10 : n < 10
    · simp [natStrCore, h10]
    · have hdiv : n / 10 < f := lt_of_lt_of_le (Nat.div_lt_self (by omega) (by omega)) (by omega)
      simp only [natStrCore, if_neg h10]
      calc natStrCore f (n / 10) (digitChar (n % 10) :: acc)
          = natStrCore f (n / 10) [] ++ (digitChar (n % 10) :: acc) := ih _ _ hdiv
        _ = (natStrCore f (n / 10) [] ++ [digitChar (n % 10)]) ++ acc := by simp
        _ = natStrCore f (n / 10) [digitChar (n % 10)] ++ acc := by rw [← ih _ _ hdiv]

theorem natStrCore_fuel (fuel : Nat) : ∀ (fuel' n : Nat), n < fuel → n < fuel' →
    natStrCore fuel n [] = natStrCore fuel' n [] := by
  induction fuel with
  | zero => intro fuel' n h; omega
  | succ f ih =>
    intro fuel' n h h'
    cases fuel' with
    | zero => omega
    | succ f' =>
      by_cases h10 : n < 10
      · simp [natStrCore, h10]
      · have hd : n / 10 < n := Nat.div_lt_self (by omega) (by omega)
        have hdf : n / 10 < f := by omega
        have hdf' : n / 10 < f' := by omega
        simp only [natStrCore, if_neg h10]
        rw [natStrCore_append f _ _ hdf, natStrCore_append f' _ _ hdf', ih f' (n / 10) hdf hdf']

theorem natRep_unfold (n : Nat) :
    natRep n = if n < 10 then [digitChar n] else natRep (n / 10) ++ [digitChar (n % 10)] := by
  by_cases h10 : n < 10
  · simp [natRep, natStrCore, h10]
  · have hd : n / 10 < n := Nat.div_lt_self (by omega) (by omega)
    rw [if_neg h10]
    show natStrCore (n + 1) n [] = natStrCore (n / 10 + 1) (n / 10) [] ++ [digitChar (n % 10)]
    have hstep : natStrCore (n + 1) n [] = natStrCore n (n / 10) [digitChar (n % 10)] := by
      simp [natStrCore, h10]
    rw [hstep, natStrCore_append n _ _ (by omega),
      natStrCore_fuel n (n / 10 + 1) (n / 10) (by omega) (by omega)]

theorem digitChar_toNat (d : Nat) (h : d < 10) : (digitChar d).toNat = 48 + d := by
  interval_cases d <;> decide

theorem digitChar_isDigit (d : Nat) (h : d < 10) : (digitChar d).isDigit = true := by
  interval_cases d <;> decide

theorem natRep_digits (n : Nat) : ∀ c ∈ natRep n, c.isDigit = true := by
  induction n using Nat.strong_induction_on with
  | _ n ih =>
    intro c hc
    rw [natRep_unfold] at hc
    by_cases h10 : n < 10
    · rw [if_pos h10] at hc
      simp at hc
      subst hc
      exact digitChar_isDigit n h10
    · rw [if_neg h10] at hc
      rcases List.mem_append.mp hc with hmem | hmem
      · exact ih (n / 10) (Nat.div_lt_self (by omega) (by omega)) c hmem
      · simp at hmem
        subst hmem
        exact digitChar_isDigit (n % 10) (Nat.mod_lt n (by omega))

theorem natRep_val (n : Nat) : charsVal (natRep n) = n := by
  induction n using Nat.strong_induction_on with
  | _ n ih =>
    rw [natRep_unfold]
    by_cases h10 : n < 10
    · simp [if_pos h10, charsVal, digitChar_toNat n h10]
    · rw [if_neg h10]
      have hfold := List.foldl_append (fun a c => 10 * a + (c.toNat - 48)) 0
        (natRep (n / 10)) [digitChar (n % 10)]
      simp only [charsVal] at *
      rw [hfold, ih (n / 10) (Nat.div_lt_self (by omega) (by omega))]
      simp [digitChar_toNat (n % 10) (Nat.mod_lt n (by omega))]
      omega

theorem natRep_inj {m n : Nat} (h : natRep m = natRep n) : m = n := by
  have := natRep_val m
  rw [h, natRep_val] at this
  omega

theorem string_mk_inj {l1 l2 : List Char} (h : String.mk l1 = String.mk l2) : l1 = l2 := by
  injection h

theorem natStr_inj {m n : Nat} (h : natStr m = natStr n) : m = n :=
  natRep_inj (string_mk_inj h)

theorem string_data_eq {s t : String} (h : s.data = t.data) : s = t := by
  cases s
  cases t
  simp only at h
  rw [h]

/-! ### String disambiguation helpers

Validator messages are compared at the level of their character lists
(`String.data`); the lemmas below let two messages with a shared shape
be told apart, or their embedded indices be recovered. -/

theorem strData_append (s t : String) : (s ++ t).data = s.data ++ t.data := rfl

/-- A maximal digit run followed by a non-digit determines itself: if two
such runs (with non-digit successors) concatenate to the same list, they
agree. -/
theorem digits_cons_eq : ∀ (p q : List Char) (c d : Char) (r1 r2 : List Char),
    (∀ x ∈ p, x.isDigit = true) → (∀ x ∈ q, x.isDigit = true) →
    c.isDigit = false → d.isDigit = false →
    p ++ c :: r1 = q ++ d :: r2 → p = q ∧ c = d ∧ r1 = r2 := by
  intro p
  induction p with
  | nil =>
    intro q c d r1 r2 _ hq hc hd h
    cases q with
    | nil => simp at h; exact ⟨rfl, h.1, h.2⟩
    | cons y q' =>
      simp at h
      exfalso
      have : y.isDigit = true := hq y (List.mem_cons_self y q')
      rw [← h.1] at this
      rw [this] at hc
      cases hc
  | cons x p' ih =>
    intro q c d r1 r2 hp hq hc hd h
    cases q with
    | nil =>
      simp at h
      exfalso
      have : x.isDigit = true := hp x (List.mem_cons_self x p')
      rw [h.1] at this
      rw [this] at hd
      cases hd
    | cons y q' =>
      simp only [List.cons_append, List.cons.injEq] at h
      obtain ⟨hxy, hrest⟩ := h
      have := ih q' c d r1 r2 (fun z hz => hp z (List.mem_cons_of_mem x hz))
        (fun z hz => hq z (List.mem_cons_of_mem y hz)) hc hd hrest
      exact ⟨by rw [hxy, this.1], this.2.1, this.2.2⟩

/-- Two per-event validator messages are equal only if they concern the
same event index and have the same tail (tails start with a colon, which
terminates the decimal index). -/
theorem evPre_append_inj (i j : Nat) (r1 r2 : String)
    (h1 : ∃ t, r1.data = ':' :: t) (h2 : ∃ t, r2.data = ':' :: t)
    (h : evPre i ++ r1 = evPre j ++ r2) : i = j ∧ r1 = r2 := by
  obtain ⟨t1, ht1⟩ := h1
  obtain ⟨t2, ht2⟩ := h2
  have hdata : "[events] Event ".data ++ (natRep i ++ r1.data)
      = "[events] Event ".data ++ (natRep j ++ r2.data) := by
    have := congrArg String.data h
    simpa [evPre, strData_append, natStr, List.append_assoc] using this
  have hcancel := List.append_cancel_left hdata
  rw [ht1, ht2] at hcancel
  have := digits_cons_eq (natRep i) (natRep j) ':' ':' t1 t2
    (natRep_digits i) (natRep_digits j) (by decide) (by decide) hcancel
  refine ⟨natRep_inj this.1, string_data_eq ?_⟩
  rw [ht1, ht2, this.2.2]

/-- Reading one position of the data of a left factor of an append. -/
theorem getn_append (x : String) (l : List Char) (n : Nat) (c : Char)
    (hx : x.data[n]? = some c) : (x.data ++ l)[n]? = some c := by
  have hlen : n < x.data.length := (List.getElem?_eq_some.mp hx).1
  rw [List.getElem?_append_left hlen]
  exact hx

/-- Two strings differing at one position differ. -/
theorem str_ne_of_get (s t : String) (n : Nat) (c d : Char)
    (hs : s.data[n]? = some c) (ht : t.data[n]? = some d) (hne : c ≠ d) : s ≠ t := by
  intro h
  rw [h] at hs
  rw [hs] at ht
  exact hne (by injection ht)

/-- Data shape of the compound unknown-reference message tails. -/
theorem tail_data_shape (x a y : String) (c : Char) (u : List Char)
    (hx : x.data = c :: u) : (x ++ a ++ y).data = c :: (u ++ a.data ++ y.data) := by
  show (x.data ++ a.data ++ y.data) = c :: (u ++ a.data ++ y.data)
  rw [hx]
  rfl

theorem getn_append_list (x l : List Char) (n : Nat) (c : Char)
    (hx : x[n]? = some c) : (x ++ l)[n]? = some c := by
  have hlen : n < x.length := (List.getElem?_eq_some.mp hx).1
  rw [List.getElem?_append_left hlen]
  exact hx

/-- Position 2 of a compound message tail `x ++ a ++ y` sits inside `x`. -/
theorem tail_get2 (x a y : String) (u : List Char) (d : Char)
    (hx : x.data = ':' :: u) (hu : u[1]? = some d) :
    (x ++ a ++ y).data[2]? = some d := by
  rw [tail_data_shape x a y ':' u hx]
  simp only [List.getElem?_cons_succ]
  rw [List.append_assoc]
  exact getn_append_list u _ 1 d hu

/-- A per-event message with a fixed tail differs from one with a
compound tail whose third characters disagree. -/
theorem evMsg_ne_shape (i j : Nat) (r1 x a y : String) (t1 u : List Char) (c d : Char)
    (h1 : r1.data = ':' :: t1) (hx : x.data = ':' :: u)
    (hc : r1.data[2]? = some c) (hd : u[1]? = some d) (hne : c ≠ d) :
    evPre i ++ r1 ≠ evPre j ++ (x ++ a ++ y) := by
  intro h
  obtain ⟨_, hr⟩ := evPre_append_inj i j _ _ ⟨t1, h1⟩
    ⟨u ++ a.data ++ y.data, by rw [tail_data_shape x a y ':' u hx]⟩ h
  exact str_ne_of_get r1 (x ++ a ++ y) 2 c d hc (tail_get2 x a y u d hx hd) hne hr

/-- Two per-event messages with distinct fixed tails are distinct. -/
theorem evMsg_ne_concrete (i j : Nat) (r1 r2 : String) (t1 t2 : List Char)
    (h1 : r1.data = ':' :: t1) (h2 : r2.data = ':' :: t2) (hne : r1 ≠ r2) :
    evPre i ++ r1 ≠ evPre j ++ r2 := by
  intro h
  exact hne (evPre_append_inj i j r1 r2 ⟨t1, h1⟩ ⟨t2, h2⟩ h).2

/-- A per-event message with a fixed tail determines its index. -/
theorem evMsg_index_eq (i j : Nat) (r : String) (t : List Char)
    (h1 : r.data = ':' :: t) (h : evPre i ++ r = evPre j ++ r) : i = j :=
  (evPre_append_inj i j r r ⟨t, h1⟩ ⟨t, h1⟩ h).1

/-! #### The pass-missing messages collide with no other validator
message of the per-event loop. -/

theorem pf_ne_ua (i j : Nat) (a : String) : passFromMsg i ≠ unknownActorMsg j a :=
  evMsg_ne_shape i j ": pass missing \x27from\x27" ": unknown actor \x22" a "\x22"
    (" pass missing \x27from\x27").data (" unknown actor \x22").data 'p' 'u'
    (by decide) (by decide) (by decide) (by decide) (by decide)

theorem pf_ne_uf (i j : Nat) (a : String) : passFromMsg i ≠ unknownFromMsg j a :=
  evMsg_ne_shape i j ": pass missing \x27from\x27" ": unknown \x27from\x27 \x22" a "\x22"
    (" pass missing \x27from\x27").data (" unknown \x27from\x27 \x22").data 'p' 'u'
    (by decide) (by decide) (by decide) (by decide) (by decide)

theorem pf_ne_ut (i j : Nat) (a : String) : passFromMsg i ≠ unknownToMsg j a :=
  evMsg_ne_shape i j ": pass missing \x27from\x27" ": unknown \x27to\x27 \x22" a "\x22"
    (" pass missing \x27from\x27").data (" unknown \x27to\x27 \x22").data 'p' 'u'
    (by decide) (by decide) (by decide) (by decide) (by decide)

theorem pf_ne_speak (i j : Nat) : passFromMsg i ≠ speakNoTextMsg j :=
  evMsg_ne_concrete i j ": pass missing \x27from\x27" ": speak event has no text"
    (" pass missing \x27from\x27").data (" speak event has no text").data
    (by decide) (by decide) (by decide)

theorem pf_ne_announce (i j : Nat) : passFromMsg i ≠ announceNoTextMsg j :=
  evMsg_ne_concrete i j ": pass missing \x27from\x27" ": announce event has no text"
    (" pass missing \x27from\x27").data (" announce event has no text").data
    (by decide) (by decide) (by decide)

theorem pf_ne_pt (i j : Nat) : passFromMsg i ≠ passToMsg j :=
  evMsg_ne_concrete i j ": pass missing \x27from\x27" ": pass missing \x27to\x27"
    (" pass missing \x27from\x27").data (" pass missing \x27to\x27").data
    (by decide) (by decide) (by decide)

theorem pf_index {i j : Nat} (h : passFromMsg i = passFromMsg j) : i = j :=
  evMsg_index_eq i j ": pass missing \x27from\x27" (" pass missing \x27from\x27").data
    (by decide) h

theorem pt_ne_ua (i j : Nat) (a : String) : passToMsg i ≠ unknownActorMsg j a :=
  evMsg_ne_shape i j ": pass missing \x27to\x27" ": unknown actor \x22" a "\x22"
    (" pass missing \x27to\x27").data (" unknown actor \x22").data 'p' 'u'
    (by decide) (by decide) (by decide) (by decide) (by decide)

theorem pt_ne_uf (i j : Nat) (a : String) : passToMsg i ≠ unknownFromMsg j a :=
  evMsg_ne_shape i j ": pass missing \x27to\x27" ": unknown \x27from\x27 \x22" a "\x22"
    (" pass missing \x27to\x27").data (" unknown \x27from\x27 \x22").data 'p' 'u'
    (by decide) (by decide) (by decide) (by decide) (by decide)

theorem pt_ne_ut (i j : Nat) (a : String) : passToMsg i ≠ unknownToMsg j a :=
  evMsg_ne_shape i j ": pass missing \x27to\x27" ": unknown \x27to\x27 \x22" a "\x22"
    (" pass missing \x27to\x27").data (" unknown \x27to\x27 \x22").data 'p' 'u'
    (by decide) (by decide) (by decide) (by decide) (by decide)

theorem pt_ne_speak (i j : Nat) : passToMsg i ≠ speakNoTextMsg j :=
  evMsg_ne_concrete i j ": pass missing \x27to\x27" ": speak event has no text"
    (" pass missing \x27to\x27").data (" speak event has no text").data
    (by decide) (by decide) (by decide)

theorem pt_ne_announce (i j : Nat) : passToMsg i ≠ announceNoTextMsg j :=
  evMsg_ne_concrete i j ": pass missing \x27to\x27" ": announce event has no text"
    (" pass missing \x27to\x27").data (" announce event has no text").data
    (by decide) (by decide) (by decide)

theorem pt_index {i j : Nat} (h : passToMsg i = passToMsg j) : i = j :=
  evMsg_index_eq i j ": pass missing \x27to\x27" (" pass missing \x27to\x27").data
    (by decide) h

/-! #### Counting the pass-missing messages in the per-event errors -/

theorem count_single (a b : String) : [b].count a = if a = b then 1 else 0 := by
  by_cases h : a = b <;> simp [List.count_cons, h]

theorem eventErrors_count_passFrom (known : List String) (i j : Nat) (ev : RawEvent) :
    (eventErrors known j ev).count (passFromMsg i) =
      if i = j ∧ ev.type = "pass" ∧ ¬ truthy ev.from' then 1 else 0 := by
  unfold eventErrors
  simp only [List.count_append]
  have c1 : (if truthy ev.actor ∧ ¬ known.contains (ev.actor.getD "") then
      [unknownActorMsg j (ev.actor.getD "")] else []).count (passFromMsg i) = 0 := by
    split
    · rw [count_single, if_neg (pf_ne_ua i j _)]
    · rfl
  have c2 : (if truthy ev.from' ∧ ¬ known.contains (ev.from'.getD "") then
      [unknownFromMsg j (ev.from'.getD "")] else []).count (passFromMsg i) = 0 := by
    split
    · rw [count_single, if_neg (pf_ne_uf i j _)]
    · rfl
  have c3 : (if truthy ev.to' ∧ ¬ known.contains (ev.to'.getD "") then
      [unknownToMsg j (ev.to'.getD "")] else []).count (passFromMsg i) = 0 := by
    split
    · rw [count_single, if_neg (pf_ne_ut i j _)]
    · rfl
  have c4 : (if ev.type = "speak" ∧ ¬ truthy ev.text then
      [speakNoTextMsg j] else []).count (passFromMsg i) = 0 := by
    split
    · rw [count_single, if_neg (pf_ne_speak i j)]
    · rfl
  have c5 : (if ev.type = "announce" ∧ ¬ truthy ev.text then
      [announceNoTextMsg j] else []).count (passFromMsg i) = 0 := by
    split
    · rw [count_single, if_neg (pf_ne_announce i j)]
    · rfl
  have c6 : (if ev.type = "pass" ∧ ¬ truthy ev.from' then
      [passFromMsg j] else []).count (passFromMsg i) =
      if i = j ∧ ev.type = "pass" ∧ ¬ truthy ev.from' then 1 else 0 := by
    by_cases hc : ev.type = "pass" ∧ ¬ truthy ev.from'
    · rw [if_pos hc, count_single]
      by_cases hij : i = j
      · subst hij
        rw [if_pos rfl, if_pos ⟨rfl, hc⟩]
      · rw [if_neg (fun he => hij (pf_index he)), if_neg (fun hco => hij hco.1)]
    · rw [if_neg hc, if_neg (fun hco => hc hco.2)]
      rfl
  have c7 : (if ev.type = "pass" ∧ ¬ truthy ev.to' then
      [passToMsg j] else []).count (passFromMsg i) = 0 := by
    split
    · rw [count_single, if_neg (pf_ne_pt i j)]
    · rfl
  rw [c1, c2, c3, c4, c5, c6, c7]
  simp

theorem eventErrors_count_passTo (known : List String) (i j : Nat) (ev : RawEvent) :
    (eventErrors known j ev).count (passToMsg i) =
      if i = j ∧ ev.type = "pass" ∧ ¬ truthy ev.to' then 1 else 0 := by
  unfold eventErrors
  simp only [List.count_append]
  have c1 : (if truthy ev.actor ∧ ¬ known.contains (ev.actor.getD "") then
      [unknownActorMsg j (ev.actor.getD "")] else []).count (passToMsg i) = 0 := by
    split
    · rw [count_single, if_neg (pt_ne_ua i j _)]
    · rfl
  have c2 : (if truthy ev.from' ∧ ¬ known.contains (ev.from'.getD "") then
      [unknownFromMsg j (ev.from'.getD "")] else []).count (passToMsg i) = 0 := by
    split
    · rw [count_single, if_neg (pt_ne_uf i j _)]
    · rfl
  have c3 : (if truthy ev.to' ∧ ¬ known.contains (ev.to'.getD "") then
      [unknownToMsg j (ev.to'.getD "")] else []).count (passToMsg i) = 0 := by
    split
    · rw [count_single, if_neg (pt_ne_ut i j _)]
    · rfl
  have c4 : (if ev.type = "speak" ∧ ¬ truthy ev.text then
      [speakNoTextMsg j] else []).count (passToMsg i) = 0 := by
    split
    · rw [count_single, if_neg (pt_ne_speak i j)]
    · rfl
  have c5 : (if ev.type = "announce" ∧ ¬ truthy ev.text then
      [announceNoTextMsg j] else []).count (passToMsg i) = 0 := by
    split
    · rw [count_single, if_neg (pt_ne_announce i j)]
    · rfl
  have c6 : (if ev.type = "pass" ∧ ¬ truthy ev.from' then
      [passFromMsg j] else []).count (passToMsg i) = 0 := by
    split
    · rw [count_single, if_neg (Ne.symm (pf_ne_pt j i))]
    · rfl
  have c7 : (if ev.type = "pass" ∧ ¬ truthy ev.to' then
      [passToMsg j] else []).count (passToMsg i) =
      if i = j ∧ ev.type = "pass" ∧ ¬ truthy ev.to' then 1 else 0 := by
    by_cases hc : ev.type = "pass" ∧ ¬ truthy ev.to'
    · rw [if_pos hc, count_single]
      by_cases hij : i = j
      · subst hij
        rw [if_pos rfl, if_pos ⟨rfl, hc⟩]
      · rw [if_neg (fun he => hij (pt_index he)), if_neg (fun hco => hij hco.1)]
    · rw [if_neg hc, if_neg (fun hco => hc hco.2)]
      rfl
  rw [c1, c2, c3, c4, c5, c6, c7]
  simp

/-- Generic counting over the event-error loop: a message family that
occurs in `eventErrors` only at its own index and exactly under `cond`
never occurs among errors of later indices. -/
theorem allEventErrors_count_zero (known : List String) (msg : Nat → String)
    (cond : RawEvent → Prop) [DecidablePred cond]
    (hchar : ∀ i j ev, (eventErrors known j ev).count (msg i) = if i = j ∧ cond ev then 1 else 0)
    (i : Nat) :
    ∀ (events : List RawEvent) (k : Nat), i < k →
      (allEventErrors known k events).count (msg i) = 0 := by
  intro events
  induction events with
  | nil => intro k _; rfl
  | cons e rest ih =>
    intro k hk
    unfold allEventErrors
    rw [List.count_append, hchar i k e, if_neg (fun hc => absurd hc.1 (by omega)),
      ih (k + 1) (by omega)]

/-- Generic counting over the event-error loop: for the event sitting at
index `i`, the message occurs exactly when `cond` holds of it. -/
theorem allEventErrors_count_at (known : List String) (msg : Nat → String)
    (cond : RawEvent → Prop) [DecidablePred cond]
    (hchar : ∀ i j ev, (eventErrors known j ev).count (msg i) = if i = j ∧ cond ev then 1 else 0)
    (i : Nat) :
    ∀ (events : List RawEvent) (k n : Nat) (ev : RawEvent),
      k + n = i → events[n]? = some ev →
      (allEventErrors known k events).count (msg i) = if cond ev then 1 else 0 := by
  intro events
  induction events with
  | nil => intro k n ev _ h; simp at h
  | cons e rest ih =>
    intro k n ev hk h
    cases n with
    | zero =>
      have he : e = ev := by simpa using h
      subst he
      have hik : i = k := by omega
      unfold allEventErrors
      rw [List.count_append, hchar i k e,
        allEventErrors_count_zero known msg cond hchar i rest (k + 1) (by omega)]
      by_cases hc : cond e
      · rw [if_pos (And.intro hik hc), if_pos hc]
      · rw [if_neg (fun hco => hc hco.2), if_neg hc]
    | succ m =>
      unfold allEventErrors
      rw [List.count_append, hchar i k e, if_neg (fun hc => by omega),
        ih (k + 1) m ev (by omega) (by simpa using h)]
      simp

/-! #### The other validator error sources never produce a per-event
pass message -/

theorem dupErrors_mem : ∀ (l : List (String × String)) (seen : List String) (e : String),
    e ∈ dupErrors l seen →
    ∃ n c, e = "[identity] Duplicate name \x22" ++ n ++ "\x22 in " ++ c := by
  intro l
  induction l with
  | nil => intro seen e he; cases he
  | cons nc rest ih =>
    intro seen e he
    unfold dupErrors at he
    rcases List.mem_append.mp he with hm | hm
    · by_cases hdup : seen.contains nc.1
      · rw [if_pos hdup] at hm
        simp at hm
        exact ⟨nc.1, nc.2, hm⟩
      · rw [if_neg hdup] at hm
        cases hm
    · exact ih (nc.1 :: seen) e hm

theorem evPre_append_get1 (i : Nat) (r : String) :
    (evPre i ++ r).data[1]? = some 'e' := by
  show (("[events] Event ".data ++ natRep i) ++ r.data)[1]? = some 'e'
  exact getn_append_list _ _ 1 'e' (getn_append_list _ _ 1 'e' (by decide))

theorem evPre_append_get9 (i : Nat) (r : String) :
    (evPre i ++ r).data[9]? = some 'E' := by
  show (("[events] Event ".data ++ natRep i) ++ r.data)[9]? = some 'E'
  exact getn_append_list _ _ 9 'E' (getn_append_list _ _ 9 'E' (by decide))

theorem identityMsg_ne_evMsg (i : Nat) (n c r : String) :
    "[identity] Duplicate name \x22" ++ n ++ "\x22 in " ++ c ≠ evPre i ++ r := by
  apply str_ne_of_get _ _ 1 'i' 'e' _ (evPre_append_get1 i r) (by decide)
  show ((("[identity] Duplicate name \x22".data ++ n.data) ++ "\x22 in ".data) ++ c.data)[1]?
    = some 'i'
  exact getn_append_list _ _ 1 'i'
    (getn_append_list _ _ 1 'i' (getn_append_list _ _ 1 'i' (by decide)))

theorem dupErrors_count_evMsg (l : List (String × String)) (seen : List String)
    (i : Nat) (r : String) : (dupErrors l seen).count (evPre i ++ r) = 0 := by
  rw [List.count_eq_zero]
  intro hmem
  obtain ⟨n, c, he⟩ := dupErrors_mem l seen _ hmem
  exact identityMsg_ne_evMsg i n c r he.symm

theorem field_length_of_schemaIssues_nil (s : RawScript) (h : schemaIssues s = []) :
    s.match'.home.field.length = 4 ∧ s.match'.away.field.length = 4 := by
  unfold schemaIssues schemaMetaIssues schemaTeamIssues at h
  simp only [List.append_eq_nil] at h
  constructor
  · by_contra hlen
    rw [if_neg hlen] at h
    simp at h
  · by_contra hlen
    rw [if_neg hlen] at h
    simp at h

theorem formationErrors_nil_of_schemaIssues_nil (s : RawScript) (h : schemaIssues s = []) :
    formationErrors (normalizeScript s).match' = [] := by
  obtain ⟨h1, h2⟩ := field_length_of_schemaIssues_nil s h
  have e1 : (normalizeScript s).match'.home.field = s.match'.home.field := rfl
  have e2 : (normalizeScript s).match'.away.field = s.match'.away.field := rfl
  unfold formationErrors
  rw [e1, e2, h1, h2]
  simp

theorem dupErrors_count_pf (l : List (String × String)) (seen : List String) (i : Nat) :
    (dupErrors l seen).count (passFromMsg i) = 0 :=
  dupErrors_count_evMsg l seen i ": pass missing \x27from\x27"

theorem dupErrors_count_pt (l : List (String × String)) (seen : List String) (i : Nat) :
    (dupErrors l seen).count (passToMsg i) = 0 :=
  dupErrors_count_evMsg l seen i ": pass missing \x27to\x27"

theorem validateScript_errors_of_schema_ok (s : RawScript) (h : schemaIssues s = []) :
    (validateScript (Raw.doc s)).errors =
      dupErrors (rosterNames (normalizeScript s).match') []
        ++ formationErrors (normalizeScript s).match'
        ++ (if (normalizeScript s).events.isEmpty then ["[events] Match has no events"] else [])
        ++ allEventErrors (knownNames (normalizeScript s).match') 0 (normalizeScript s).events := by
  simp [validateScript, h]

/-! ## Claim C8 -/

/-- C8 (confirmed): on a script passing schema validation, each `pass`
event at index `i` contributes exactly one `[events]` error for a
missing (falsy) `from` and exactly one for a missing `to`, and the two
messages are distinct — so a pass missing both yields exactly two
independent errors. -/
theorem pass_missing_field_errors (s : RawScript) (i : Nat) (ev : RawEvent)
    (hschema : schemaIssues s = [])
    (hev : s.events[i]? = some ev)
    (hty : ev.type = "pass") :
    ((validateScript (Raw.doc s)).errors.count (passFromMsg i)
        = if truthy ev.from' then 0 else 1) ∧
    ((validateScript (Raw.doc s)).errors.count (passToMsg i)
        = if truthy ev.to' then 0 else 1) ∧
    passFromMsg i ≠ passToMsg i := by
  rw [validateScript_errors_of_schema_ok s hschema]
  have hne : (normalizeScript s).events.isEmpty = false := by
    show s.events.isEmpty = false
    cases hevs : s.events with
    | nil => rw [hevs] at hev; simp at hev
    | cons a l => rfl
  have hfor := formationErrors_nil_of_schemaIssues_nil s hschema
  refine ⟨?_, ?_, pf_ne_pt i i⟩
  · simp only [List.count_append]
    rw [dupErrors_count_pf, hfor, hne,
      allEventErrors_count_at (knownNames (normalizeScript s).match') passFromMsg
        (fun e => e.type = "pass" ∧ ¬ truthy e.from')
        (fun i j ev => eventErrors_count_passFrom _ i j ev) i
        (normalizeScript s).events 0 i ev (by omega) hev]
    by_cases hf : truthy ev.from'
    · simp [hf]
    · simp [hf, hty]
  · simp only [List.count_append]
    rw [dupErrors_count_pt, hfor, hne,
      allEventErrors_count_at (knownNames (normalizeScript s).match') passToMsg
        (fun e => e.type = "pass" ∧ ¬ truthy e.to')
        (fun i j ev => eventErrors_count_passTo _ i j ev) i
        (normalizeScript s).events 0 i ev (by omega) hev]
    by_cases hf : truthy ev.to'
    · simp [hf]
    · simp [hf, hty]

/-- Witness for C8: the concrete one-pass script produces exactly one
missing-`from` and one missing-`to` error, and they differ. -/
theorem pass_missing_field_errors_witness :
    ((validateScript (Raw.doc passScript)).errors.count (passFromMsg 0) = 1) ∧
    ((validateScript (Raw.doc passScript)).errors.count (passToMsg 0) = 1) ∧
    passFromMsg 0 ≠ passToMsg 0 := by
  have h := pass_missing_field_errors passScript 0 { minute := 0, type := "pass" }
    (by decide) (by decide) rfl
  simpa using h

/-! ## Claim C4 -/

/-- C4 (confirmed): `validateScript` is a total function of its input
(the embedding is a total Lean function: malformed input is a value, not
an exception), and the `valid` flag is true exactly when the error list
is empty; the warnings play no part in validity. -/
theorem validateScript_valid_iff_errors_empty (r : Raw) :
    (validateScript r).valid = true ↔ (validateScript r).errors = [] := by
  cases r with
  | malformed d => simp [validateScript]
  | doc s =>
    by_cases h : schemaIssues s = []
    · simp [validateScript, h, List.isEmpty_iff]
    · simp [validateScript, h]

/-! ## Claim C3 -/

theorem schema_prefix_true (m : String) :
    strStartsWith ("[schema] " ++ m) "[schema]" = true := by
  unfold strStartsWith
  rw [ List.isPrefixOf_iff_prefix]
  refine ⟨' ' :: m.data, ?_⟩
  show "[schema]".data ++ (' ' :: m.data) = "[schema] ".data ++ m.data
  rw [show ("[schema] ").data = "[schema]".data ++ [' '] from by decide]
  simp

theorem formation_prefix_false (m : String) :
    strStartsWith ("[schema] " ++ m) "[formation]" = false := by
  unfold strStartsWith
  rw [Bool.eq_false_iff]
  intro h
  rw [ List.isPrefixOf_iff_prefix] at h
  obtain ⟨t, ht⟩ := h
  have h1 : ("[formation]".data ++ t)[1]? = some 'f' :=
    getn_append_list _ _ 1 'f' (by decide)
  have h2 : (("[schema] " ++ m) : String).data[1]? = some 's' :=
    getn_append_list _ _ 1 's' (by decide)
  rw [ht] at h1
  rw [h1] at h2
  injection h2 with h2
  cases h2

/-- C3 (corrected): a team with a field-player count other than 4 never
reaches the `[formation]` check — the zod `TeamSchema` already
constrains `field` to exactly 4 entries, so schema validation fails
first and `validateScript` returns `[schema]`-prefixed errors only. -/
theorem field_length_schema_short_circuit (s : RawScript)
    (h : s.match'.home.field.length ≠ 4 ∨ s.match'.away.field.length ≠ 4) :
    (validateScript (Raw.doc s)).errors ≠ [] ∧
    (∀ e ∈ (validateScript (Raw.doc s)).errors, strStartsWith e "[schema]" = true) ∧
    (∀ e ∈ (validateScript (Raw.doc s)).errors, strStartsWith e "[formation]" = false) := by
  have hIssues : ¬ schemaIssues s = [] := by
    intro hnil
    have hf := field_length_of_schemaIssues_nil s hnil
    rcases h with h | h
    · exact h hf.1
    · exact h hf.2
  have herrs : (validateScript (Raw.doc s)).errors
      = (schemaIssues s).map (fun m => "[schema] " ++ m) := by
    simp [validateScript, hIssues]
  refine ⟨?_, ?_, ?_⟩
  · rw [herrs]
    intro hm
    rw [List.map_eq_nil_iff] at hm
    exact hIssues hm
  · rw [herrs]
    intro e he
    obtain ⟨m, _, rfl⟩ := List.mem_map.mp he
    exact schema_prefix_true m
  · rw [herrs]
    intro e he
    obtain ⟨m, _, rfl⟩ := List.mem_map.mp he
    exact formation_prefix_false m

/-- Witness for C3 (amended): the concrete 3-field-player document is
rejected with non-empty, all-`[schema]`, no-`[formation]` errors. -/
theorem field_length_schema_short_circuit_witness :
    (validateScript (Raw.doc threeFieldScript)).errors ≠ [] ∧
    (∀ e ∈ (validateScript (Raw.doc threeFieldScript)).errors,
      strStartsWith e "[schema]" = true) ∧
    (∀ e ∈ (validateScript (Raw.doc threeFieldScript)).errors,
      strStartsWith e "[formation]" = false) :=
  field_length_schema_short_circuit threeFieldScript (Or.inl (by decide))

/-- Counterexample for C3 as stated: on the 3-field-player document the
validator emits no `[formation]`-prefixed error at all (the claim
demands exactly one naming the team). -/
theorem formation_error_never_emitted_cex :
    ((validateScript (Raw.doc threeFieldScript)).errors.filter
      (fun e => strStartsWith e "[formation]")).length = 0 ∧
    (validateScript (Raw.doc threeFieldScript)).errors ≠ [] := by
  constructor
  · decide
  · decide

/-! ## Claim C1 -/

/-- C1 (corrected, amended): repeating `advanceClock` with the same
minute and added value yields the same period as a single call, for
every clock state and minute except when the state is at halftime and
the minute is at most 45 (there the first call resumes `second_half`
while the repeat re-derives `first_half`). -/
theorem advanceClock_period_idem_amended (s : ClockState) (m : Int) (a : Option Int)
    (h : s.period ≠ MatchPeriod.halftime ∨ 45 < m) :
    (advanceClock (advanceClock s m a) m a).period = (advanceClock s m a).period := by
  show derivePeriod m (derivePeriod m s.period) = derivePeriod m s.period
  have hcase : derivePeriod m s.period = MatchPeriod.first_half ∧ m ≤ 45
      ∨ derivePeriod m s.period = MatchPeriod.second_half ∧ 45 < m := by
    unfold derivePeriod
    split_ifs with h1 h2 h3
    · left; exact ⟨rfl, by omega⟩
    · right
      refine ⟨rfl, ?_⟩
      rcases h with h | h
      · exact absurd h2 h
      · exact h
    · left; exact ⟨rfl, h3⟩
    · right; exact ⟨rfl, by omega⟩
  rcases hcase with ⟨hp, hm⟩ | ⟨hp, hm⟩
  · rw [hp]
    unfold derivePeriod
    rw [if_neg (by simp), if_neg (by simp), if_pos hm]
  · rw [hp]
    unfold derivePeriod
    rw [if_neg (by simp), if_neg (by simp), if_neg (by omega)]

/-- Witness for C1 (amended): repeating minute 10 from the initial
clock is idempotent on the period. -/
theorem advanceClock_period_idem_amended_witness :
    (advanceClock (advanceClock initialClock 10 none) 10 none).period
      = (advanceClock initialClock 10 none).period :=
  advanceClock_period_idem_amended initialClock 10 none (Or.inl (by decide))

/-- Counterexample for C1 as stated: from a halftime clock state,
advancing twice to minute 10 gives `first_half`, while advancing once
gives `second_half`. -/
theorem advanceClock_period_idem_cex :
    (advanceClock (advanceClock { minute := 3, added := 0, period := MatchPeriod.halftime } 10 none)
        10 none).period = MatchPeriod.first_half ∧
    (advanceClock { minute := 3, added := 0, period := MatchPeriod.halftime } 10 none).period
        = MatchPeriod.second_half := by
  decide

/-! ## Engine lemmas -/

theorem mapGet_mapModify (m : List (String × PlayerState)) (k k' : String)
    (f : PlayerState → PlayerState) :
    mapGet (mapModify m k f) k' = if k' = k then (mapGet m k).map f else mapGet m k' := by
  induction m with
  | nil => by_cases h : k' = k <;> simp [mapGet, mapModify, h]
  | cons e rest ih =>
    by_cases hek : e.1 = k
    · by_cases hek' : e.1 = k'
      · rw [← hek, ← hek']
        simp [mapGet, mapModify, hek]
      · have hkk : ¬ k' = k := fun hc => hek' (by rw [hek, hc])
        have hkk2 : ¬ k = k' := fun hc => hek' (hek.trans hc)
        simp [mapGet, mapModify, hek, hkk, hkk2]
    · by_cases hek' : e.1 = k'
      · have hkk : ¬ k' = k := fun hc => hek (by rw [hek', hc])
        simp [mapGet, mapModify, hek, hek', hkk]
      · simp [mapGet, mapModify, hek, hek', ih]

/-! ## Claim C10 -/

/-- C10 (confirmed): a `goal` event with no `actor` field is a complete
no-op on the runtime state — the entire `if (event.actor)` branch,
including the unconditional ball reset inside it, is skipped. -/
theorem goal_without_actor_noop (s : MatchState) (ev : RawEvent)
    (hty : ev.type = "goal") (ha : ev.actor = none) :
    applyEvent s ev = s := by
  simp [applyEvent, hty, ha, truthy]

/-- Witness for C10: a concrete actorless goal event leaves a concrete
initialized state unchanged. -/
theorem goal_without_actor_noop_witness :
    applyEvent (initState passScript) { minute := 5, type := "goal" }
      = initState passScript :=
  goal_without_actor_noop (initState passScript) { minute := 5, type := "goal" } rfl rfl

/-! ## Claim C5 -/

/-- C5 (confirmed): a `goal` event whose actor resolves to a home-side
player increments `score.home` by exactly 1, leaves `score.away`
unchanged, kills the ball, clears the holder and recenters the ball;
symmetrically for an away-side scorer. -/
theorem goal_scoring_effect (s : MatchState) (ev : RawEvent) (a : String) (ps : PlayerState)
    (hty : ev.type = "goal") (ha : ev.actor = some a) (hne : a ≠ "")
    (hget : mapGet s.players a = some ps) :
    (ps.team = Side.home →
      (applyEvent s ev).score.home = s.score.home + 1 ∧
      (applyEvent s ev).score.away = s.score.away ∧
      (applyEvent s ev).ball.dead = true ∧
      (applyEvent s ev).ball.holder = none ∧
      (applyEvent s ev).ball.position = { x := 0, y := 0 }) ∧
    (ps.team = Side.away →
      (applyEvent s ev).score.away = s.score.away + 1 ∧
      (applyEvent s ev).score.home = s.score.home ∧
      (applyEvent s ev).ball.dead = true ∧
      (applyEvent s ev).ball.holder = none ∧
      (applyEvent s ev).ball.position = { x := 0, y := 0 }) := by
  constructor
  · intro hteam
    simp [applyEvent, hty, ha, truthy, hne, hget, hteam]
  · intro hteam
    have : ¬ ps.team = Side.home := by rw [hteam]; intro hc; cases hc
    simp [applyEvent, hty, ha, truthy, hne, hget, hteam, this]

/-- Witness for C5: concrete goals by the home tender and the away
forward on the initialized sample state. -/
theorem goal_scoring_effect_witness :
    ((applyEvent (initState passScript) { minute := 9, type := "goal", actor := some "HT" }).score.home
        = (initState passScript).score.home + 1 ∧
      (applyEvent (initState passScript) { minute := 9, type := "goal", actor := some "HT" }).score.away
        = (initState passScript).score.away) ∧
    ((applyEvent (initState passScript) { minute := 9, type := "goal", actor := some "AF" }).score.away
        = (initState passScript).score.away + 1 ∧
      (applyEvent (initState passScript) { minute := 9, type := "goal", actor := some "AF" }).score.home
        = (initState passScript).score.home) := by
  constructor
  · have h := (goal_scoring_effect (initState passScript)
      { minute := 9, type := "goal", actor := some "HT" } "HT"
      { player := mkPlayer "HT" "tender", team := Side.home
        position := { x := -46, y := 0 }, hasBall := false, onPitch := true, cards := [] }
      rfl rfl (by decide) (by decide)).1 rfl
    exact ⟨h.1, h.2.1⟩
  · have h := (goal_scoring_effect (initState passScript)
      { minute := 9, type := "goal", actor := some "AF" } "AF"
      { player := mkPlayer "AF" "forward", team := Side.away
        position := { x := 5, y := 0 }, hasBall := false, onPitch := true, cards := [] }
      rfl rfl (by decide) (by decide)).2 rfl
    exact ⟨h.1, h.2.1⟩

/-! ## Claim C7 -/

/-- C7 (corrected, amended): an `exit` event on a known player is keyed
on that player's possession flag (not on `ball.holder`): with the flag
set it kills the ball, clears the holder and the flag, and marks the
player off-pitch; with the flag unset it only marks the player
off-pitch, leaving the ball untouched. -/
theorem exit_event_effect_amended (s : MatchState) (ev : RawEvent) (a : String) (ps : PlayerState)
    (hty : ev.type = "exit") (ha : ev.actor = some a) (hne : a ≠ "")
    (hget : mapGet s.players a = some ps) :
    (ps.hasBall = true →
      applyEvent s ev =
        { s with
          players := mapModify s.players a (fun p => { p with onPitch := false, hasBall := false })
          ball := { s.ball with dead := true, holder := none } }) ∧
    (ps.hasBall = false →
      applyEvent s ev =
        { s with players := mapModify s.players a (fun p => { p with onPitch := false }) }) := by
  constructor <;> intro hb <;> simp [applyEvent, hty, ha, truthy, hne, hget, hb]

/-- Witness for C7 (amended): exiting the post-kickoff ball holder kills
the ball; exiting a non-holder leaves the ball alone. -/
theorem exit_event_effect_amended_witness :
    (applyEvent kickoffState { minute := 1, type := "exit", actor := some "HT" }).ball.dead = true ∧
    (applyEvent kickoffState { minute := 1, type := "exit", actor := some "AD" }).ball
      = kickoffState.ball := by
  constructor
  · have h := (exit_event_effect_amended kickoffState
      { minute := 1, type := "exit", actor := some "HT" } "HT"
      { player := mkPlayer "HT" "tender", team := Side.home
        position := { x := -46, y := 0 }, hasBall := true, onPitch := true, cards := [] }
      rfl rfl (by decide) (by decide)).1 rfl
    rw [h]
  · have h := (exit_event_effect_amended kickoffState
      { minute := 1, type := "exit", actor := some "AD" } "AD"
      { player := mkPlayer "AD" "defender", team := Side.away
        position := { x := 30, y := 0 }, hasBall := false, onPitch := true, cards := [] }
      rfl rfl (by decide) (by decide)).2 rfl
    rw [h]

/-- Counterexample for C7 as stated: in a state where `ball.holder`
names a known player whose possession flag is unset, an `exit` on that
player leaves the ball live and the holder uncleared — the claim (keyed
on `ball.holder`) demands a dead ball and a cleared holder. -/
theorem exit_event_cex :
    (applyEvent desyncState { minute := 1, type := "exit", actor := some "HT" }).ball.dead = false ∧
    (applyEvent desyncState { minute := 1, type := "exit", actor := some "HT" }).ball.holder
      = some "HT" ∧
    mapGet desyncState.players "HT" ≠ none ∧
    desyncState.ball.holder = some "HT" := by
  decide

/-! ## Claim C2 -/

/-- C2 (corrected, amended): events naming unknown players during replay
are absorbed without error, but they are not all complete no-ops.
`move`, `exit` and `card` events with an unknown actor change nothing;
`pass` / `intercept` / `hold` to an unknown (truthy) name still clear
the current holder's possession flag (leaving `ball.holder` stale); a
`goal` with an unknown (truthy) actor still kills, clears and recenters
the ball. -/
theorem unknown_name_effects_amended (s : MatchState) (ev : RawEvent) :
    (∀ a, ev.type = "move" → ev.actor = some a → mapGet s.players a = none →
      applyEvent s ev = s) ∧
    (∀ a, ev.type = "exit" → ev.actor = some a → mapGet s.players a = none →
      applyEvent s ev = s) ∧
    (∀ a, ev.type = "card" → ev.actor = some a → mapGet s.players a = none →
      applyEvent s ev = s) ∧
    (∀ t, ev.type = "pass" → ev.to' = some t → t ≠ "" → mapGet s.players t = none →
      applyEvent s ev = clearHolderFlag s) ∧
    (∀ a, ev.type = "intercept" ∨ ev.type = "hold" → ev.actor = some a → a ≠ "" →
      mapGet s.players a = none → applyEvent s ev = clearHolderFlag s) ∧
    (∀ a, ev.type = "goal" → ev.actor = some a → a ≠ "" → mapGet s.players a = none →
      applyEvent s ev =
        { s with ball := { holder := none, position := { x := 0, y := 0 }, dead := true } }) := by
  have hclear : ∀ (t : String), mapGet s.players t = none →
      mapGet (clearHolderFlag s).players t = none := by
    intro t hget
    unfold clearHolderFlag
    split
    · simp only [mapGet_mapModify]
      split
      · rename_i hk
        rw [hk] at hget
        rw [hget]
        rfl
      · exact hget
    · exact hget
  refine ⟨?_, ?_, ?_, ?_, ?_, ?_⟩
  · intro a hty ha hget
    by_cases hae : a = ""
    · simp [applyEvent, hty, ha, truthy, hae]
    · cases hpos : ev.position <;> simp [applyEvent, hty, ha, truthy, hae, hget, hpos]
  · intro a hty ha hget
    by_cases hae : a = ""
    · simp [applyEvent, hty, ha, truthy, hae]
    · simp [applyEvent, hty, ha, truthy, hae, hget]
  · intro a hty ha hget
    by_cases hae : a = ""
    · simp [applyEvent, hty, ha, truthy, hae]
    · by_cases hcard : truthy ev.card <;>
        simp [applyEvent, hty, ha, truthy, hae, hget, hcard]
  · intro t hty hto hne hget
    simp [applyEvent, hty, hto, truthy, hne, giveBall, hclear t hget]
  · intro a hor ha hne hget
    rcases hor with hty | hty <;>
      simp [applyEvent, hty, ha, truthy, hne, giveBall, hclear a hget]
  · intro a hty ha hne hget
    simp [applyEvent, hty, ha, truthy, hne, hget]

/-- Witness for C2 (amended): a `move` naming an unknown actor is a
no-op on the post-kickoff state, and a `pass` to an unknown name equals
clearing the holder's flag. -/
theorem unknown_name_effects_amended_witness :
    applyEvent kickoffState
        { minute := 1, type := "move", actor := some "Ghost", position := some { x := 1, y := 1 } }
      = kickoffState ∧
    applyEvent kickoffState { minute := 1, type := "pass", to' := some "Ghost" }
      = clearHolderFlag kickoffState := by
  constructor
  · exact (unknown_name_effects_amended kickoffState _).1 "Ghost" rfl rfl (by decide)
  · exact (unknown_name_effects_amended kickoffState _).2.2.2.1 "Ghost" rfl rfl
      (by decide) (by decide)

/-- Counterexample for C2 as stated: a `pass` to the unknown name
"Ghost" from the post-kickoff state is not a no-op — it clears the
tender's possession flag while leaving the stale holder record. -/
theorem unknown_name_noop_cex :
    applyEvent kickoffState { minute := 1, type := "pass", from' := some "HT", to' := some "Ghost" }
      ≠ kickoffState ∧
    (mapGet (applyEvent kickoffState
        { minute := 1, type := "pass", from' := some "HT", to' := some "Ghost" }).players "HT").map
        (fun p => p.hasBall) = some false ∧
    (mapGet kickoffState.players "HT").map (fun p => p.hasBall) = some true ∧
    (applyEvent kickoffState
        { minute := 1, type := "pass", from' := some "HT", to' := some "Ghost" }).ball.holder
      = some "HT" ∧
    mapGet kickoffState.players "Ghost" = none := by
  refine ⟨?_, by decide, by decide, by decide, by decide⟩
  intro h
  have := congrArg (fun st => (mapGet st.players "HT").map (fun p => p.hasBall)) h
  simp only at this
  rw [show (mapGet (applyEvent kickoffState
      { minute := 1, type := "pass", from' := some "HT", to' := some "Ghost" }).players "HT").map
      (fun p => p.hasBall) = some false from by decide] at this
  rw [show (mapGet kickoffState.players "HT").map (fun p => p.hasBall) = some true from by decide]
    at this
  cases this

/-! ## Claim C9 -/

/-- C9 (code bug): possession exclusivity is not preserved by replay.
The engine clears `ball.holder` on `dead_ball` (and goal / halftime /
fulltime) without resetting the holder's `hasBall` flag, so after
kickoff, `dead_ball`, and a pass to the away defender, two players carry
`hasBall = true` simultaneously while `ball.holder` names only one of
them. -/
theorem possession_exclusivity_code_bug :
    ((replayScript staleFlagScript).players.filter (fun e => e.2.hasBall)).length = 2 ∧
    (replayScript staleFlagScript).ball.holder = some "AD" ∧
    (mapGet (replayScript staleFlagScript).players "HT").map (fun p => p.hasBall)
      = some true := by
  exact ⟨by decide, by decide, by decide⟩

/-! ## Claim C6 -/

theorem mapModify_keys (m : List (String × PlayerState)) (k : String)
    (f : PlayerState → PlayerState) :
    (mapModify m k f).map Prod.fst = m.map Prod.fst := by
  induction m with
  | nil => rfl
  | cons e rest ih =>
    unfold mapModify
    split
    · rfl
    · simp [ih]

theorem mapModify_mem_cases {m : List (String × PlayerState)} {k : String}
    {f : PlayerState → PlayerState} {e : String × PlayerState}
    (hnd : (m.map Prod.fst).Nodup) (he : e ∈ mapModify m k f) :
    (e ∈ m ∧ e.1 ≠ k) ∨ ∃ v, (k, v) ∈ m ∧ e = (k, f v) := by
  induction m with
  | nil => cases he
  | cons a rest ih =>
    obtain ⟨n, v0⟩ := a
    simp only [List.map_cons, List.nodup_cons] at hnd
    obtain ⟨hnmem, hndrest⟩ := hnd
    unfold mapModify at he
    by_cases hak : n = k
    · simp only [if_pos hak] at he
      rcases List.mem_cons.mp he with he1 | he1
    -- the head was replaced
      · right
        refine ⟨v0, ?_, ?_⟩
        · rw [← hak]; exact List.mem_cons_self _ _
        · rw [he1, hak]
      · left
        refine ⟨List.mem_cons_of_mem _ he1, ?_⟩
        intro hek
        apply hnmem
        rw [hak, ← hek]
        exact List.mem_map.mpr ⟨e, he1, rfl⟩
    · simp only [if_neg hak] at he
      rcases List.mem_cons.mp he with he1 | he1
      · left
        refine ⟨List.mem_cons.mpr (Or.inl he1), ?_⟩
        rw [he1]
        exact hak
      · rcases ih hndrest he1 with ⟨hm, hne⟩ | ⟨v, hv, heq⟩
        · exact Or.inl ⟨List.mem_cons_of_mem _ hm, hne⟩
        · exact Or.inr ⟨v, List.mem_cons_of_mem _ hv, heq⟩

/-- C6 (corrected, amended): a kickoff whistle makes the ball live and
hands it to the home tender, provided the tender is a known player and
every set possession flag belongs to the recorded (non-empty-named) ball
holder; then the tender's flag is set and only entries keyed by the
tender's name carry a set flag. -/
theorem kickoff_whistle_effect_amended (s : MatchState) (ev : RawEvent) (tps : PlayerState)
    (hty : ev.type = "whistle") (hr : ev.reason = some "kickoff")
    (hnd : (s.players.map Prod.fst).Nodup)
    (htender : mapGet s.players s.meta.home.tender.name = some tps)
    (hcons : ∀ e ∈ s.players, e.2.hasBall = true → s.ball.holder = some e.1 ∧ e.1 ≠ "") :
    (applyEvent s ev).ball.dead = false ∧
    (applyEvent s ev).ball.holder = some s.meta.home.tender.name ∧
    mapGet (applyEvent s ev).players s.meta.home.tender.name
      = some { tps with hasBall := true } ∧
    (∀ e ∈ (applyEvent s ev).players, e.2.hasBall = true →
      e.1 = s.meta.home.tender.name) := by
  have happly : applyEvent s ev
      = giveBall { s with ball := { s.ball with dead := false } } s.meta.home.tender.name := by
    simp [applyEvent, hty, hr]
  set tname := s.meta.home.tender.name with htn
  set s' : MatchState := { s with ball := { s.ball with dead := false } } with hs'
  have hsp : s'.players = s.players := rfl
  have hsh : s'.ball.holder = s.ball.holder := rfl
  -- after the clearing phase no flag is set at all
  have hnoflag : ∀ e ∈ (clearHolderFlag s').players, e.2.hasBall = false := by
    intro e he
    unfold clearHolderFlag at he
    by_cases hh : truthy s'.ball.holder
    · rw [if_pos hh] at he
      simp only [hsp, hsh] at he
      cases hb : e.2.hasBall
      · rfl
      · exfalso
        rcases mapModify_mem_cases hnd he with ⟨hemem, hnek⟩ | ⟨v, _, heq⟩
        · obtain ⟨hold, hne⟩ := hcons e hemem hb
          apply hnek
          rw [hold]
          rfl
        · rw [heq] at hb
          simp at hb
    · rw [if_neg hh] at he
      simp only [hsp] at he
      cases hb : e.2.hasBall
      · rfl
      · exfalso
        obtain ⟨hold, hne⟩ := hcons e he hb
        apply hh
        rw [hsh, hold]
        simp [truthy, hne]
  have hnd1 : ((clearHolderFlag s').players.map Prod.fst).Nodup := by
    unfold clearHolderFlag
    split
    · simp only [hsp, hsh]
      rw [mapModify_keys]
      exact hnd
    · exact hnd
  have hget1 : ∃ ps1, mapGet (clearHolderFlag s').players tname = some ps1 ∧
      ({ ps1 with hasBall := true } : PlayerState) = { tps with hasBall := true } := by
    unfold clearHolderFlag
    by_cases hh : truthy s'.ball.holder
    · rw [if_pos hh]
      show ∃ ps1, mapGet (mapModify s.players (s.ball.holder.getD "") _) tname = some ps1 ∧ _
      rw [mapGet_mapModify]
      split
      · rename_i hk
        rw [← hk, htender]
        refine ⟨{ tps with hasBall := false }, rfl, ?_⟩
        cases tps
        rfl
      · exact ⟨tps, htender, rfl⟩
    · rw [if_neg hh]
      exact ⟨tps, htender, rfl⟩
  obtain ⟨ps1, hps1, hps1b⟩ := hget1
  have hgb : giveBall s' tname =
      { clearHolderFlag s' with
        players := mapModify (clearHolderFlag s').players tname
          (fun p => { p with hasBall := true })
        ball := { holder := some tname, position := ps1.position, dead := false } } := by
    unfold giveBall
    rw [hps1]
  rw [happly, hgb]
  refine ⟨rfl, rfl, ?_, ?_⟩
  · show mapGet (mapModify (clearHolderFlag s').players tname _) tname = _
    rw [mapGet_mapModify, if_pos rfl, hps1]
    exact congrArg some hps1b
  · intro e he hb
    rcases mapModify_mem_cases hnd1 he with ⟨hemem, _⟩ | ⟨v, _, heq⟩
    · rw [hnoflag e hemem] at hb
      cases hb
    · rw [heq]

/-- Witness for C6 (amended): kickoff on the freshly initialized sample
state gives the home tender the ball. -/
theorem kickoff_whistle_effect_amended_witness :
    (applyEvent (initState passScript) kickoffEv).ball.dead = false ∧
    (applyEvent (initState passScript) kickoffEv).ball.holder
      = some (initState passScript).meta.home.tender.name ∧
    mapGet (applyEvent (initState passScript) kickoffEv).players
        (initState passScript).meta.home.tender.name
      = some { player := mkPlayer "HT" "tender", team := Side.home
               position := { x := -46, y := 0 }, hasBall := true, onPitch := true
               cards := [] } := by
  have h := kickoff_whistle_effect_amended (initState passScript) kickoffEv
    { player := mkPlayer "HT" "tender", team := Side.home
      position := { x := -46, y := 0 }, hasBall := false, onPitch := true, cards := [] }
    rfl rfl (by decide) (by decide) (by decide)
  exact ⟨h.1, h.2.1, h.2.2.1⟩

/-- Counterexample for C6 as stated: from the replay-reachable state
with a stale flag on the away defender, a kickoff whistle leaves that
defender's possession flag set even though the holder is the home
tender — the claim demands every other player's flag cleared. -/
theorem kickoff_whistle_cex :
    (applyEvent staleFlagState kickoffEv).ball.holder = some "HT" ∧
    (mapGet (applyEvent staleFlagState kickoffEv).players "AD").map (fun p => p.hasBall)
      = some true ∧
    ("AD" : String) ≠ "HT" := by
  exact ⟨by decide, by decide, by decide⟩

end Cup

open Cup


example : natStr 0 = "0" := by decide
example : natStr 507 = "507" := by decide
example : intStr (-8) = "-8" := by decide
example : isIdFormat "S1M001" = true := by decide
example : isIdFormat "S1M" = false := by decide
example : isIdFormat "SM1" = false := by decide
example : isIdFormat "S10M20" = true := by decide
example : strToUpper "abc" = "ABC" := by decide
example : strToUpper "AB2" = "AB2" := by decide
